import Mathlib

/-!
# The simulation driver of `demo_DISTR_rotgrav.cpp`

A shallow embedding of `src/demos/distributed/demo_DISTR_rotgrav.cpp`:
`Monitor`, `OutputData`, `AddContainer`, `AddFallingBalls` and the stepping loop
of `main`.

Modelling conventions.

* A C++ `double` is a rational number (exact arithmetic); `std::ceil` is the
  integer ceiling.
* A C++ `int` is an integer, and the conversion of a `std::ceil` result to `int`
  is the identity.  Inside the stepping loop every `int` that changes (`i`,
  `out_frame`) stays between `0` and `num_steps`, so no wrap-around occurs.
* Every `for` statement is an instance of `forLoop`, which tests the loop
  condition before each pass and is bounded by a fuel argument; running out of
  fuel yields `none`.
* The physics engine is an external collaborator.  The calls the stepping loop
  makes on it, and what it prints, are appended to a log, each entry tagged with
  the value of the loop counter `i`.
-/

namespace RotGrav

/-! ## Data model -/

/-- Three-component vector (`ChVector<double>`). -/
structure ChVector where
  x : ℚ
  y : ℚ
  z : ℚ
deriving DecidableEq

/-- An argument handed to `printf`: an `int` or a `double`. -/
inductive Value
  | int (v : Int)
  | real (v : ℚ)
deriving DecidableEq

/-- One conversion of the `printf` format string of `Monitor`: the literal text
that directly precedes the conversion (`"E"`, `"B1"`, ...), the conversion
specification, and the argument it consumes. -/
structure RowField where
  text : String
  conv : String
  value : Value
deriving DecidableEq

/-- A body handed to `AddBody`. -/
structure Body where
  identifier : Int
  pos : ChVector
  bodyFixed : Bool
deriving DecidableEq

/-- The part of the engine state the driver writes: the gravity vector and the
list of bodies, in the order in which they were added. -/
structure ChSystemDistributed where
  G_acc : ChVector
  bodies : List Body
deriving DecidableEq

/-- The instrumentation surface read by `Monitor`: one value per getter, and the
named timers of `data_manager->system_timer`. -/
structure EngineReadings where
  ChTime : ℚ
  TimerStep : ℚ
  TimerCollisionBroad : ℚ
  system_timer : String → ℚ
  TimerCollisionNarrow : ℚ
  TimerSolver : ℚ
  TimerUpdate : ℚ
  Nbodies : Int
  Ncontacts : Int
  Residual : ℚ
  TotalIterations : Int

/-- What the stepping loop does to the outside world. -/
inductive Event
  | callOutputData (out_frame : Int) (time : ℚ)
  | WriteCSV (filedir filename : String)
  | coutTime (time : ℚ)
  | coutBounds
  | coutText (msg : String)
  | Set_G_acc (g : ChVector)
  | printfRow (row : List RowField)
  | DoStepDynamics (time_step : ℚ) (G_acc : ChVector)
deriving DecidableEq

/-- The ambient values of a process: the globals `my_rank` and `num_ranks`, the
freshly constructed system, and what the engine instrumentation reports when
`Monitor` is called in pass `i` of the stepping loop. -/
structure Env where
  my_rank : Int
  num_ranks : Int
  sys0 : ChSystemDistributed
  engine : Int → EngineReadings

/-- The local variables of `main` that the stepping loop only reads. -/
structure RunParams where
  time_step : ℚ
  num_steps : Int
  out_steps : Int
  checkpoints_0 : Int
  checkpoints_1 : Int
  checkpoints_2 : Int
  checkpoints_3 : Int

/-- The mutable state of the stepping loop: the system, the locals `out_frame`
and `time`, and the log of events. -/
structure World where
  sys : ChSystemDistributed
  out_frame : Int
  time : ℚ
  log : List (Int × Event)

/-! ## Operations -/

/-- Bounded `for (a = a0; cond a; a = next a) body`. -/
def forLoop {α σ : Type} (cond : α → Bool) (next : α → α) (body : α → σ → Option σ) :
    Nat → α → σ → Option σ
  | 0, a, s => if cond a then none else some s
  | fuel + 1, a, s =>
    if cond a then (body a s).bind (forLoop cond next body fuel (next a)) else some s

/-- Append an event to the log, tagged with the loop counter. -/
def emit (i : Int) (e : Event) (w : World) : World :=
  { w with log := w.log ++ [(i, e)] }

/-- Modelled from the spec: `set_gravity(vector3)` of the engine, whose code is
not part of the sources; it replaces the gravity vector. -/
def ChSystemDistributed.Set_G_acc (g : ChVector) (sys : ChSystemDistributed) :
    ChSystemDistributed :=
  { sys with G_acc := g }

/-- Modelled from the spec: `add_body(body_descriptor)` of the engine, whose code
is not part of the sources; it appends the body to the body store. -/
def ChSystemDistributed.AddBody (b : Body) (sys : ChSystemDistributed) :
    ChSystemDistributed :=
  { sys with bodies := sys.bodies ++ [b] }

/-- A call `my_sys.Set_G_acc(g)` made in pass `i` of the stepping loop. -/
def Set_G_acc (i : Int) (g : ChVector) (w : World) : World :=
  { emit i (Event.Set_G_acc g) w with sys := w.sys.Set_G_acc g }

/-- `Monitor`: reads the timers and counters into locals, in the order of the
source, and hands them to `printf` in the order of its argument list.  The
`dynamic_cast` of a `ChSystemParallel*` to `ChSystemParallel*` succeeds for the
non-null pointer `main` passes, so `RESID` and `REQ_ITS` are read from the
solver. -/
def Monitor (my_rank : Int) (system : EngineReadings) : List RowField :=
  let TIME := system.ChTime
  let STEP := system.TimerStep
  let BROD := system.TimerCollisionBroad
  let B1 := system.system_timer "B1"
  let B2 := system.system_timer "B2"
  let B3 := system.system_timer "B3"
  let B4 := system.system_timer "B4"
  let B5 := system.system_timer "B5"
  let A := system.system_timer "A"
  let NARR := system.TimerCollisionNarrow
  let SOLVER := system.TimerSolver
  let UPDT := system.TimerUpdate
  let SEND := system.system_timer "Send"
  let RECV := system.system_timer "Recv"
  let EXCH := system.system_timer "Exchange"
  let BODS := system.Nbodies
  let CNTC := system.Ncontacts
  let RESID := system.Residual
  let REQ_ITS := system.TotalIterations
  [ ⟨"", "%d", Value.int my_rank⟩, ⟨"", "%8.5f", Value.real TIME⟩,
    ⟨"", "%7.4f", Value.real STEP⟩, ⟨"E", "%7.4f", Value.real EXCH⟩,
    ⟨"S", "%7.4f", Value.real SEND⟩, ⟨"R", "%7.4f", Value.real RECV⟩,
    ⟨"B", "%7.4f", Value.real BROD⟩, ⟨"B1", "%7.4f", Value.real B1⟩,
    ⟨"B2", "%7.4f", Value.real B2⟩, ⟨"B3", "%7.4f", Value.real B3⟩,
    ⟨"B4", "%7.4f", Value.real B4⟩, ⟨"B5", "%7.4f", Value.real B5⟩,
    ⟨"A", "%7.4f", Value.real A⟩, ⟨"N", "%7.4f", Value.real NARR⟩,
    ⟨"", "%7.4f", Value.real SOLVER⟩, ⟨"", "%7.4f", Value.real UPDT⟩,
    ⟨"", "%7d", Value.int BODS⟩, ⟨"", "%7d", Value.int CNTC⟩,
    ⟨"", "%7d", Value.int REQ_ITS⟩, ⟨"", "%7.4f", Value.real RESID⟩ ]

/-- `OutputData(sys, out_frame, time)` called in pass `i`: writes the CSV file
`"data" + std::to_string(out_frame)` and prints the time. -/
def OutputData (env : Env) (i : Int) (out_frame : Int) (time : ℚ) (w : World) : World :=
  let w := emit i (Event.callOutputData out_frame time) w
  let filedir := if env.num_ranks = 1 then "../reference" else "../granular"
  let filename := "data" ++ toString out_frame
  let w := emit i (Event.WriteCSV filedir filename) w
  emit i (Event.coutTime time) w

/-- `AddContainer`: one fixed body with identifier `-200` at the origin. -/
def AddContainer (sys : ChSystemDistributed) : ChSystemDistributed :=
  let binId : Int := -200
  sys.AddBody ⟨binId, ⟨0, 0, 0⟩, true⟩

/-- `AddFallingBalls`: three nested loops over `z`, `ix`, `iy`; the state of the
loops is the system together with the counter `ballId`. -/
def AddFallingBalls (count_X count_Y : Int) (fuel : Nat) (sys : ChSystemDistributed) :
    Option ChSystemDistributed :=
  let ballId : Int := 0
  (forLoop (fun z : ℚ => decide (z < 15)) (fun z => z + 35 / 100)
    (fun z st =>
      forLoop (fun ix : Int => decide (ix ≤ count_X)) (fun ix => ix + 1)
        (fun ix st =>
          forLoop (fun iy : Int => decide (iy ≤ count_Y)) (fun iy => iy + 1)
            (fun iy (st : ChSystemDistributed × Int) =>
              let pos : ChVector := ⟨35 / 100 * ix, 35 / 100 * iy, z⟩
              some (st.1.AddBody ⟨st.2, pos, false⟩, st.2 + 1))
            fuel (-count_Y) st)
        fuel (-count_X) st)
    fuel 10 (sys, ballId)).map (fun st => st.1)

/-- The four `if (i == checkpoints[k])` statements of the stepping loop. -/
def applyCheckpoints (p : RunParams) (i : Int) (w : World) : World :=
  let w := if i = p.checkpoints_0 then
      Set_G_acc i ⟨-5, 0, -10⟩ (emit i (Event.coutText "Resetting gravity: (-5, 0, -10)\n") w)
    else w
  let w := if i = p.checkpoints_1 then
      Set_G_acc i ⟨0, 5, -10⟩ (emit i (Event.coutText "Resetting gravity: (0, 5, -10)\n") w)
    else w
  let w := if i = p.checkpoints_2 then
      Set_G_acc i ⟨5, 0, -10⟩ (emit i (Event.coutText "Resetting gravity: (5, 0, -10)\n") w)
    else w
  if i = p.checkpoints_3 then
    Set_G_acc i ⟨0, -5, -10⟩ (emit i (Event.coutText "Resetting gravity: (0, -5, -10)\n") w)
  else w

/-- The output statement at the head of the loop body.  `i % out_steps` is the
truncating remainder of C++. -/
def outputBlock (env : Env) (p : RunParams) (i : Int) (w : World) : World :=
  if Int.tmod i p.out_steps = 0 then
    let w := OutputData env i w.out_frame w.time w
    let w := { w with out_frame := w.out_frame + 1 }
    emit i Event.coutBounds w
  else w

/-- The statements of the body of the stepping loop, in source order: the
output statement, the checkpoint statements, `Monitor`, `DoStepDynamics`,
`time += time_step`. -/
def loopPass (env : Env) (p : RunParams) (i : Int) (w : World) : World :=
  let w := outputBlock env p i w
  let w := applyCheckpoints p i w
  let w := emit i (Event.printfRow (Monitor env.my_rank (env.engine i))) w
  let w := emit i (Event.DoStepDynamics p.time_step w.sys.G_acc) w
  { w with time := w.time + p.time_step }

/-- One pass of the body of the stepping loop.  The remainder `i % out_steps` is
undefined for a zero divisor, so the pass has no result when `out_steps` is `0`. -/
def loopBody (env : Env) (p : RunParams) (i : Int) (w : World) : Option World :=
  if p.out_steps = 0 then none else some (loopPass env p i w)

/-- The loop `for (int i = 0; i < num_steps; i++)` of `main`. -/
def simulationLoop (env : Env) (p : RunParams) (fuel : Nat) (w : World) : Option World :=
  forLoop (fun i : Int => decide (i < p.num_steps)) (fun i => i + 1) (loopBody env p) fuel 0 w

/-- The locals `num_steps`, `out_steps` and `checkpoints` as `main` computes them
from `time_step`, `time_end` and `out_fps`. -/
def runParams (time_step time_end out_fps : ℚ) : RunParams where
  time_step := time_step
  num_steps := ⌈time_end / time_step⌉
  out_steps := ⌈(1 / time_step) / out_fps⌉
  checkpoints_0 := ⌈2 / time_step⌉
  checkpoints_1 := ⌈8 / time_step⌉
  checkpoints_2 := ⌈12 / time_step⌉
  checkpoints_3 := ⌈16 / time_step⌉

/-- The global `count_X`. -/
def count_X : Int := 10

/-- The global `count_Y`. -/
def count_Y : Int := 10

/-- The world in which the stepping loop starts: `out_frame = 0`, `time = 0`. -/
def startWorld (sys : ChSystemDistributed) : World :=
  ⟨sys, 0, 0, []⟩

/-- The configured values `time_step = 1e-3`, `time_end = 24`, `out_fps = 50`. -/
def configured : RunParams :=
  runParams (1 / 1000) 24 50

/-- The system as `main` has set it up when the stepping loop starts. -/
def setup (env : Env) (fuel : Nat) : Option ChSystemDistributed :=
  let my_sys := env.sys0.Set_G_acc ⟨1 / 100, 1 / 100, -98 / 10⟩
  let my_sys := AddContainer my_sys
  AddFallingBalls count_X count_Y fuel my_sys

/-- `main`: set-up, then the stepping loop. -/
def main (env : Env) (fuel : Nat) : Option World :=
  (setup env fuel).bind fun my_sys =>
    simulationLoop env configured fuel (startWorld my_sys)

/-! ## Derived notions used to state the properties -/

/-- The world at the head of the stepping loop when the counter `i` has the
value `k`: the start world after `k` passes of the loop body. -/
def worldAt (env : Env) (p : RunParams) (w0 : World) : Nat → World
  | 0 => w0
  | k + 1 => loopPass env p k (worldAt env p w0 k)

/-- The gravity vector left by the four checkpoint statements of pass `i`. -/
def gravityAfter (p : RunParams) (i : Int) (g : ChVector) : ChVector :=
  let g := if i = p.checkpoints_0 then ⟨-5, 0, -10⟩ else g
  let g := if i = p.checkpoints_1 then ⟨0, 5, -10⟩ else g
  let g := if i = p.checkpoints_2 then ⟨5, 0, -10⟩ else g
  if i = p.checkpoints_3 then ⟨0, -5, -10⟩ else g

/-- The events of the four checkpoint statements of pass `i`. -/
def checkpointEvents (p : RunParams) (i : Int) : List Event :=
  (if i = p.checkpoints_0 then
    [Event.coutText "Resetting gravity: (-5, 0, -10)\n", Event.Set_G_acc ⟨-5, 0, -10⟩] else [])
  ++ (if i = p.checkpoints_1 then
    [Event.coutText "Resetting gravity: (0, 5, -10)\n", Event.Set_G_acc ⟨0, 5, -10⟩] else [])
  ++ (if i = p.checkpoints_2 then
    [Event.coutText "Resetting gravity: (5, 0, -10)\n", Event.Set_G_acc ⟨5, 0, -10⟩] else [])
  ++ (if i = p.checkpoints_3 then
    [Event.coutText "Resetting gravity: (0, -5, -10)\n", Event.Set_G_acc ⟨0, -5, -10⟩] else [])

/-- The events of the output statement of pass `i`. -/
def outputEvents (env : Env) (p : RunParams) (i : Int) (out_frame : Int) (time : ℚ) :
    List Event :=
  if Int.tmod i p.out_steps = 0 then
    [Event.callOutputData out_frame time,
     Event.WriteCSV (if env.num_ranks = 1 then "../reference" else "../granular")
       ("data" ++ toString out_frame),
     Event.coutTime time, Event.coutBounds]
  else []

/-- The events of pass `i`, started in world `w`. -/
def passEvents (env : Env) (p : RunParams) (i : Int) (w : World) : List Event :=
  outputEvents env p i w.out_frame w.time ++ checkpointEvents p i ++
    [Event.printfRow (Monitor env.my_rank (env.engine i)),
     Event.DoStepDynamics p.time_step (gravityAfter p i w.sys.G_acc)]

/-- The loop counters at which `DoStepDynamics` was called, in log order. -/
def stepTicks (log : List (Int × Event)) : List Int :=
  log.filterMap fun e =>
    match e.2 with
    | Event.DoStepDynamics _ _ => some e.1
    | _ => none

/-- For each call of `DoStepDynamics`, in log order: the loop counter and the
gravity vector the system holds at the call. -/
def stepGravity (log : List (Int × Event)) : List (Int × ChVector) :=
  log.filterMap fun e =>
    match e.2 with
    | Event.DoStepDynamics _ g => some (e.1, g)
    | _ => none

/-- For each call of `OutputData`, in log order: the loop counter, the frame
index and the time handed over. -/
def outputCalls (log : List (Int × Event)) : List (Int × Int × ℚ) :=
  log.filterMap fun e =>
    match e.2 with
    | Event.callOutputData f t => some (e.1, f, t)
    | _ => none

/-- For each call of `WriteCSV`, in log order: the loop counter, the directory
and the file name. -/
def csvWrites (log : List (Int × Event)) : List (Int × String × String) :=
  log.filterMap fun e =>
    match e.2 with
    | Event.WriteCSV d f => some (e.1, d, f)
    | _ => none

/-- For each call of `Set_G_acc`, in log order: the loop counter and the vector. -/
def gravityCalls (log : List (Int × Event)) : List (Int × ChVector) :=
  log.filterMap fun e =>
    match e.2 with
    | Event.Set_G_acc g => some (e.1, g)
    | _ => none

/-- How often `Set_G_acc` was called with the vector `g`. -/
def timesApplied (log : List (Int × Event)) (g : ChVector) : Nat :=
  ((gravityCalls log).filter fun c => decide (c.2 = g)).length

/-- The events logged while the loop counter had the value `i`, in log order. -/
def tickSlice (log : List (Int × Event)) (i : Int) : List Event :=
  (log.filter fun e => decide (e.1 = i)).map fun e => e.2

/-- The body of the innermost loop of `AddFallingBalls`. -/
def addBall (z : ℚ) (ix iy : Int) (st : ChSystemDistributed × Int) : ChSystemDistributed × Int :=
  (st.1.AddBody ⟨st.2, ⟨35 / 100 * ix, 35 / 100 * iy, z⟩, false⟩, st.2 + 1)

/-- One row of balls: what the `iy` loop of `AddFallingBalls` computes. -/
def addRow (count_Y : Int) (z : ℚ) (ix : Int) (st : ChSystemDistributed × Int) :
    ChSystemDistributed × Int :=
  (List.range (2 * count_Y + 1).toNat).foldl
    (fun st (j : Nat) => addBall z ix (-count_Y + (j : Int)) st) st

/-- One layer of balls: what the `ix` loop of `AddFallingBalls` computes. -/
def addLayer (count_X count_Y : Int) (z : ℚ) (st : ChSystemDistributed × Int) :
    ChSystemDistributed × Int :=
  (List.range (2 * count_X + 1).toNat).foldl
    (fun st (j : Nat) => addRow count_Y z (-count_X + (j : Int)) st) st

/-- The gravity vector as a step function of the loop counter, for checkpoints
in increasing order: `g0` before the first checkpoint, then the vector of the
latest checkpoint reached. -/
def gravitySchedule (p : RunParams) (g0 : ChVector) (i : Int) : ChVector :=
  if i < p.checkpoints_0 then g0
  else if i < p.checkpoints_1 then ⟨-5, 0, -10⟩
  else if i < p.checkpoints_2 then ⟨0, 5, -10⟩
  else if i < p.checkpoints_3 then ⟨5, 0, -10⟩
  else ⟨0, -5, -10⟩

/-- The gravity vector the specification promises for the physics step of tick
`i` of the configured run: the initial vector before tick 2000, afterwards the
vector of the latest trigger tick not after `i`. -/
def gravityInEffect (i : Int) : ChVector :=
  if i < 2000 then ⟨1 / 100, 1 / 100, -98 / 10⟩
  else if i < 8000 then ⟨-5, 0, -10⟩
  else if i < 12000 then ⟨0, 5, -10⟩
  else if i < 16000 then ⟨5, 0, -10⟩
  else ⟨0, -5, -10⟩

/-- Events of the output phase: the call of `OutputData` and what it does. -/
def isOutput : Event → Bool
  | Event.callOutputData _ _ => true
  | Event.WriteCSV _ _ => true
  | Event.coutTime _ => true
  | _ => false

/-- Events of the checkpoint phase: an application of a gravity mutation. -/
def isCheckpoint : Event → Bool
  | Event.Set_G_acc _ => true
  | _ => false

/-- Events of the physics phase. -/
def isStep : Event → Bool
  | Event.DoStepDynamics _ _ => true
  | _ => false

/-- Events of the telemetry phase: the row printed by `Monitor`. -/
def isTelemetry : Event → Bool
  | Event.printfRow _ => true
  | _ => false

/-- Every event satisfying `pa` occurs before every event satisfying `pb`: once
a `pb` event has occurred, no `pa` event follows. -/
def allBefore (pa pb : Event → Bool) : List Event → Bool
  | [] => true
  | e :: l => (!pb e || l.all fun x => !pa x) && allBefore pa pb l

/-- The phase order of the specification: checkpoints, output, physics step,
telemetry. -/
def claimedPhaseOrder (evs : List Event) : Bool :=
  allBefore isCheckpoint isOutput evs && allBefore isOutput isStep evs
    && allBefore isStep isTelemetry evs

/-- The phase order of the source: output, checkpoints, telemetry, physics
step. -/
def sourcePhaseOrder (evs : List Event) : Bool :=
  allBefore isOutput isCheckpoint evs && allBefore isCheckpoint isTelemetry evs
    && allBefore isTelemetry isStep evs

/-- The diagnostic row as the specification describes it: the rank, the elapsed
time, the tick duration, and then the timers and counters in the order in which
`Monitor` reads them into its locals. -/
def claimedRow (my_rank : Int) (time_step : ℚ) (system : EngineReadings) : List Value :=
  [ Value.int my_rank, Value.real system.ChTime, Value.real time_step,
    Value.real system.TimerCollisionBroad,
    Value.real (system.system_timer "B1"), Value.real (system.system_timer "B2"),
    Value.real (system.system_timer "B3"), Value.real (system.system_timer "B4"),
    Value.real (system.system_timer "B5"), Value.real (system.system_timer "A"),
    Value.real system.TimerCollisionNarrow, Value.real system.TimerSolver,
    Value.real system.TimerUpdate,
    Value.real (system.system_timer "Send"), Value.real (system.system_timer "Recv"),
    Value.real (system.system_timer "Exchange"),
    Value.int system.Nbodies, Value.int system.Ncontacts,
    Value.real system.Residual, Value.int system.TotalIterations ]

/-- A sample of engine readings in which all readings differ. -/
def engine0 : EngineReadings :=
  { ChTime := 1, TimerStep := 2, TimerCollisionBroad := 3
    system_timer := fun name =>
      if name = "B1" then 4 else if name = "B2" then 5 else if name = "B3" then 6
      else if name = "B4" then 7 else if name = "B5" then 8 else if name = "A" then 9
      else if name = "Send" then 13 else if name = "Recv" then 14
      else if name = "Exchange" then 15 else 0
    TimerCollisionNarrow := 10, TimerSolver := 11, TimerUpdate := 12
    Nbodies := 16, Ncontacts := 17, Residual := 18, TotalIterations := 19 }

/-- A sample process: rank 0 of one, an empty fresh system, and the sample
readings at every tick. -/
def env0 : Env :=
  { my_rank := 0, num_ranks := 1, sys0 := ⟨⟨0, 0, 0⟩, []⟩, engine := fun _ => engine0 }

/-- A small run: five ticks of half a second, output every second tick,
checkpoints at ticks 2, 8, 12 and 16. -/
def smallRun : RunParams :=
  { time_step := 1 / 2, num_steps := 5, out_steps := 2
    checkpoints_0 := 2, checkpoints_1 := 8, checkpoints_2 := 12, checkpoints_3 := 16 }

/-! ## Lemmas -/

/-- Peeling the first index off a fold over `List.range (k + 1)`. -/
theorem foldl_range_succ_shift {σ : Type} (g : Nat → σ → σ) (k : Nat) (s : σ) :
    (List.range (k + 1)).foldl (fun s j => g j s) s
      = (List.range k).foldl (fun s j => g (j + 1) s) (g 0 s) := by
  rw [List.range_succ_eq_map, List.foldl_cons, List.foldl_map]

/-- A loop whose body always returns and whose condition holds for the first `k`
values of the loop variable and fails for the next one returns, given fuel `k`
or more, the `k`-fold application of its body. -/
theorem forLoop_iterate {α σ : Type} (cond : α → Bool) (next : α → α)
    (body : α → σ → Option σ) (f : α → σ → σ) (hb : ∀ a s, body a s = some (f a s)) :
    ∀ (k fuel : Nat) (a : α) (s : σ), (∀ j, j < k → cond (next^[j] a) = true) →
      cond (next^[k] a) = false → k ≤ fuel →
      forLoop cond next body fuel a s
        = some ((List.range k).foldl (fun s j => f (next^[j] a) s) s) := by
  intro k
  induction k with
  | zero =>
    intro fuel a s _ hstop _
    have h0 : cond a = false := by simpa using hstop
    cases fuel <;> simp [forLoop, h0]
  | succ k ih =>
    intro fuel a s hgo hstop hfuel
    obtain ⟨fuel, rfl⟩ : ∃ m, fuel = m + 1 := ⟨fuel - 1, by omega⟩
    have h0 : cond a = true := by simpa using hgo 0 (Nat.succ_pos k)
    have hrec := ih fuel (next a) (f a s)
      (fun j hj => by simpa [Function.iterate_succ_apply] using hgo (j + 1) (by omega))
      (by simpa [Function.iterate_succ_apply] using hstop) (by omega)
    rw [foldl_range_succ_shift (fun j s => f (next^[j] a) s)]
    simpa [forLoop, h0, hb, Function.iterate_succ_apply] using hrec

/-- The `j`-th value of an integer loop variable that is incremented by one. -/
theorem iterate_add_one (i : Int) (j : Nat) : (fun a : Int => a + 1)^[j] i = i + j := by
  induction j generalizing i with
  | zero => simp
  | succ j ih => rw [Function.iterate_succ_apply, ih]; push_cast; ring

/-- A counting loop over the integers `i, i + 1, ...` below `n`. -/
theorem forLoop_count {σ : Type} (n : Int) (cond : Int → Bool)
    (hc : ∀ a, cond a = decide (a < n)) (body : Int → σ → Option σ) (f : Int → σ → σ)
    (hb : ∀ a s, body a s = some (f a s)) (fuel : Nat) (i : Int) (s : σ)
    (hfuel : (n - i).toNat ≤ fuel) :
    forLoop cond (fun a => a + 1) body fuel i s
      = some ((List.range (n - i).toNat).foldl (fun s (j : Nat) => f (i + (j : Int)) s) s) := by
  have h := forLoop_iterate cond (fun a => a + 1) body f hb (n - i).toNat fuel i s
    (fun j hj => by rw [iterate_add_one, hc]; simp; omega)
    (by rw [iterate_add_one, hc]; simp; omega) hfuel
  simp only [iterate_add_one] at h
  exact h

/-- The checkpoint statements in closed form. -/
theorem applyCheckpoints_eq (p : RunParams) (i : Int) (w : World) :
    applyCheckpoints p i w =
      { sys := { G_acc := gravityAfter p i w.sys.G_acc, bodies := w.sys.bodies }
        out_frame := w.out_frame
        time := w.time
        log := w.log ++ (checkpointEvents p i).map (Prod.mk i) } := by
  simp only [applyCheckpoints, gravityAfter, checkpointEvents, Set_G_acc, emit,
    ChSystemDistributed.Set_G_acc]
  split_ifs <;> simp

/-- The output statement in closed form. -/
theorem outputBlock_eq (env : Env) (p : RunParams) (i : Int) (w : World) :
    outputBlock env p i w =
      { sys := w.sys
        out_frame := w.out_frame + (if Int.tmod i p.out_steps = 0 then 1 else 0)
        time := w.time
        log := w.log ++ (outputEvents env p i w.out_frame w.time).map (Prod.mk i) } := by
  simp only [outputBlock, outputEvents, OutputData, emit]
  split_ifs <;> simp

/-- One pass of the loop body in closed form. -/
theorem loopPass_eq (env : Env) (p : RunParams) (i : Int) (w : World) :
    loopPass env p i w =
      { sys := { G_acc := gravityAfter p i w.sys.G_acc, bodies := w.sys.bodies }
        out_frame := w.out_frame + (if Int.tmod i p.out_steps = 0 then 1 else 0)
        time := w.time + p.time_step
        log := w.log ++ (passEvents env p i w).map (Prod.mk i) } := by
  simp only [loopPass, applyCheckpoints_eq, outputBlock_eq, emit, passEvents]
  simp

/-- Folding the loop body over the first `k` counters gives `worldAt`. -/
theorem foldl_loopPass (env : Env) (p : RunParams) (w0 : World) (k : Nat) :
    (List.range k).foldl (fun w (j : Nat) => loopPass env p (j : Int) w) w0
      = worldAt env p w0 k := by
  induction k with
  | zero => rfl
  | succ k ih => simp [List.range_succ, List.foldl_append, ih, worldAt]

/-- With a non-zero `out_steps` and enough fuel the stepping loop returns, and
it returns the world reached after `num_steps` passes. -/
theorem simulationLoop_eq (env : Env) (p : RunParams) (fuel : Nat) (w0 : World)
    (hs : p.out_steps ≠ 0) (hf : p.num_steps.toNat ≤ fuel) :
    simulationLoop env p fuel w0 = some (worldAt env p w0 p.num_steps.toNat) := by
  unfold simulationLoop
  rw [forLoop_count p.num_steps _ (fun _ => rfl) (loopBody env p) (loopPass env p)
    (fun a s => by simp [loopBody, hs]) fuel 0 w0 (by simpa using hf)]
  simp only [sub_zero, zero_add]
  rw [foldl_loopPass]

/-- The log grows by the events of pass `k`. -/
theorem worldAt_succ_log (env : Env) (p : RunParams) (w0 : World) (k : Nat) :
    (worldAt env p w0 (k + 1)).log
      = (worldAt env p w0 k).log
        ++ (passEvents env p k (worldAt env p w0 k)).map (Prod.mk (k : Int)) := by
  simp [worldAt, loopPass_eq]

/-- The clock at the head of pass `k`. -/
theorem worldAt_time (env : Env) (p : RunParams) (w0 : World) (k : Nat) :
    (worldAt env p w0 k).time = w0.time + k * p.time_step := by
  induction k with
  | zero => simp [worldAt]
  | succ k ih => simp [worldAt, loopPass_eq, ih]; ring

/-- Pass `k` makes one call of `DoStepDynamics`. -/
theorem stepTicks_succ (env : Env) (p : RunParams) (w0 : World) (k : Nat) :
    stepTicks (worldAt env p w0 (k + 1)).log = stepTicks (worldAt env p w0 k).log ++ [(k : Int)] := by
  rw [worldAt_succ_log]
  simp only [stepTicks, List.filterMap_append, passEvents, outputEvents, checkpointEvents]
  split_ifs <;> simp

/-- The gravity vector held at the physics step of pass `k`. -/
theorem stepGravity_succ (env : Env) (p : RunParams) (w0 : World) (k : Nat) :
    stepGravity (worldAt env p w0 (k + 1)).log = stepGravity (worldAt env p w0 k).log
      ++ [((k : Int), gravityAfter p k (worldAt env p w0 k).sys.G_acc)] := by
  rw [worldAt_succ_log]
  simp only [stepGravity, List.filterMap_append, passEvents, outputEvents, checkpointEvents]
  split_ifs <;> simp

/-- Pass `k` calls `OutputData` exactly when the remainder is zero. -/
theorem outputCalls_succ (env : Env) (p : RunParams) (w0 : World) (k : Nat) :
    outputCalls (worldAt env p w0 (k + 1)).log = outputCalls (worldAt env p w0 k).log
      ++ (if Int.tmod k p.out_steps = 0 then
          [((k : Int), (worldAt env p w0 k).out_frame, (worldAt env p w0 k).time)] else []) := by
  rw [worldAt_succ_log]
  simp only [outputCalls, List.filterMap_append, passEvents, outputEvents, checkpointEvents]
  split_ifs <;> simp

/-- Pass `k` writes a file exactly when the remainder is zero. -/
theorem csvWrites_succ (env : Env) (p : RunParams) (w0 : World) (k : Nat) :
    csvWrites (worldAt env p w0 (k + 1)).log = csvWrites (worldAt env p w0 k).log
      ++ (if Int.tmod k p.out_steps = 0 then
          [((k : Int), (if env.num_ranks = 1 then "../reference" else "../granular"),
            "data" ++ toString (worldAt env p w0 k).out_frame)] else []) := by
  rw [worldAt_succ_log]
  simp only [csvWrites, List.filterMap_append, passEvents, outputEvents, checkpointEvents]
  split_ifs <;> simp

/-- The calls of `Set_G_acc` made in pass `k`. -/
theorem gravityCalls_succ (env : Env) (p : RunParams) (w0 : World) (k : Nat) :
    gravityCalls (worldAt env p w0 (k + 1)).log = gravityCalls (worldAt env p w0 k).log
      ++ (if (k : Int) = p.checkpoints_0 then [((k : Int), (⟨-5, 0, -10⟩ : ChVector))] else [])
      ++ (if (k : Int) = p.checkpoints_1 then [((k : Int), (⟨0, 5, -10⟩ : ChVector))] else [])
      ++ (if (k : Int) = p.checkpoints_2 then [((k : Int), (⟨5, 0, -10⟩ : ChVector))] else [])
      ++ (if (k : Int) = p.checkpoints_3 then [((k : Int), (⟨0, -5, -10⟩ : ChVector))] else []) := by
  rw [worldAt_succ_log]
  simp only [gravityCalls, List.filterMap_append, passEvents, outputEvents, checkpointEvents]
  split_ifs <;> simp

/-- Only pass `i` logs events tagged `i`. -/
theorem tickSlice_succ (env : Env) (p : RunParams) (w0 : World) (k : Nat) (i : Int) :
    tickSlice (worldAt env p w0 (k + 1)).log i = tickSlice (worldAt env p w0 k).log i
      ++ (if (k : Int) = i then passEvents env p k (worldAt env p w0 k) else []) := by
  rw [worldAt_succ_log]
  simp only [tickSlice, List.filter_append, List.map_append, List.filter_map]
  by_cases h : (k : Int) = i
  · simp [h, Function.comp_def]
  · simp [h, Function.comp_def]

/-- On natural numbers the truncating remainder is the remainder. -/
theorem tmod_natCast (k S : Nat) : Int.tmod (k : Int) (S : Int) = 0 ↔ k % S = 0 := by
  rw [← Int.ofNat_tmod]
  exact Int.natCast_eq_zero

/-- Rounding a quotient of natural numbers up. -/
theorem add_pred_div (n s : Nat) (hs : 1 ≤ s) :
    (n + s - 1) / s = n / s + if n % s = 0 then 0 else 1 := by
  have hdm := Nat.div_add_mod n s
  have hlt := Nat.mod_lt n (show s > 0 by omega)
  generalize n / s = q at *
  generalize n % s = r at *
  have e1 : (q + 1) * s = s * q + s := by ring
  have e2 : (q + 1 + 1) * s = s * q + s + s := by ring
  have e3 : q * s = s * q := by ring
  split_ifs with h
  · rw [Nat.add_zero]
    exact Nat.div_eq_of_lt_le (by omega) (by omega)
  · exact Nat.div_eq_of_lt_le (by omega) (by omega)

/-- The number of multiples of `s` below `n`. -/
theorem add_pred_div_succ (n s : Nat) (hs : 1 ≤ s) :
    (n + 1 + s - 1) / s = (n + s - 1) / s + if n % s = 0 then 1 else 0 := by
  rw [add_pred_div n s hs]
  have : n + 1 + s - 1 = n + s := by omega
  rw [this, Nat.add_div_right n (by omega)]
  split_ifs <;> omega

/-- For a multiple of `s` the rounded-up quotient is exact. -/
theorem add_pred_div_mul (n s : Nat) (hs : 1 ≤ s) (h : n % s = 0) :
    ((n + s - 1) / s) * s = n := by
  rw [add_pred_div n s hs, if_pos h, Nat.add_zero]
  exact Nat.div_mul_cancel (Nat.dvd_of_mod_eq_zero h)

/-- The ceiling of a quotient of natural numbers, computed in the naturals. -/
theorem ceil_div_natCast (n s : Nat) (hs : 1 ≤ s) :
    ⌈(n : ℚ) / (s : ℚ)⌉ = (((n + s - 1) / s : Nat) : Int) := by
  have hsq : (0 : ℚ) < (s : ℚ) := by exact_mod_cast hs
  rw [Int.ceil_eq_iff, add_pred_div n s hs]
  have hdm := Nat.div_add_mod n s
  have hlt := Nat.mod_lt n (show s > 0 by omega)
  generalize n / s = q at *
  generalize n % s = r at *
  have hn : (n : ℚ) = (s : ℚ) * q + r := by exact_mod_cast hdm.symm
  have hr : (r : ℚ) < s := by exact_mod_cast hlt
  have hr0 : (0 : ℚ) ≤ r := by positivity
  rw [lt_div_iff₀ hsq, div_le_iff₀ hsq, hn]
  split_ifs with h
  · subst h
    push_cast
    constructor <;> nlinarith
  · have : (1 : ℚ) ≤ r := by exact_mod_cast Nat.one_le_iff_ne_zero.mpr h
    push_cast
    constructor <;> nlinarith

/-- After `k` passes the physics step has been called for the ticks `0, ..., k - 1`. -/
theorem stepTicks_worldAt (env : Env) (p : RunParams) (sys : ChSystemDistributed) (k : Nat) :
    stepTicks (worldAt env p (startWorld sys) k).log = (List.range k).map Int.ofNat := by
  induction k with
  | zero => simp [worldAt, startWorld, stepTicks]
  | succ k ih => rw [stepTicks_succ, ih, List.range_succ, List.map_append]; rfl

/-- The frame counter at the head of pass `k`. -/
theorem worldAt_out_frame (env : Env) (p : RunParams) (w0 : World) (S : Nat)
    (hS : p.out_steps = (S : Int)) (h1 : 1 ≤ S) (k : Nat) :
    (worldAt env p w0 k).out_frame = w0.out_frame + (((k + S - 1) / S : Nat) : Int) := by
  induction k with
  | zero =>
    have : (0 + S - 1) / S = 0 := Nat.div_eq_of_lt (by omega)
    rw [this]
    simp [worldAt]
  | succ k ih =>
    simp only [worldAt, loopPass_eq, ih, hS, tmod_natCast, add_pred_div_succ k S h1]
    split_ifs <;> push_cast <;> ring

/-- The calls of `OutputData` made by the first `k` passes. -/
theorem outputCalls_worldAt (env : Env) (p : RunParams) (sys : ChSystemDistributed) (S : Nat)
    (hS : p.out_steps = (S : Int)) (h1 : 1 ≤ S) (k : Nat) :
    outputCalls (worldAt env p (startWorld sys) k).log
      = (List.range ((k + S - 1) / S)).map
          (fun m : Nat => ((m : Int) * p.out_steps, (m : Int), (m : ℚ) * p.out_steps * p.time_step)) := by
  induction k with
  | zero =>
    have : (0 + S - 1) / S = 0 := Nat.div_eq_of_lt (by omega)
    rw [this]
    simp [worldAt, startWorld, outputCalls]
  | succ k ih =>
    rw [outputCalls_succ, ih, add_pred_div_succ k S h1, hS, worldAt_out_frame env p _ S hS h1,
      worldAt_time]
    simp only [tmod_natCast]
    split_ifs with h
    · have hk := add_pred_div_mul k S h1 h
      have hkq : ((k : ℚ)) = (((k + S - 1) / S : Nat) : ℚ) * (S : ℚ) := by exact_mod_cast hk.symm
      have hki : ((k : Int)) = (((k + S - 1) / S : Nat) : Int) * (S : Int) := by exact_mod_cast hk.symm
      rw [List.range_succ, List.map_append]
      simp only [List.map_cons, List.map_nil, startWorld, zero_add]
      rw [← hki]
      congr 3
      rw [hkq]; push_cast; ring
    · simp

/-- The files written by the first `k` passes. -/
theorem csvWrites_worldAt (env : Env) (p : RunParams) (sys : ChSystemDistributed) (S : Nat)
    (hS : p.out_steps = (S : Int)) (h1 : 1 ≤ S) (k : Nat) :
    csvWrites (worldAt env p (startWorld sys) k).log
      = (List.range ((k + S - 1) / S)).map
          (fun m : Nat => ((m : Int) * p.out_steps,
            (if env.num_ranks = 1 then "../reference" else "../granular"),
            "data" ++ Nat.repr m)) := by
  induction k with
  | zero =>
    have : (0 + S - 1) / S = 0 := Nat.div_eq_of_lt (by omega)
    rw [this]
    simp [worldAt, startWorld, csvWrites]
  | succ k ih =>
    rw [csvWrites_succ, ih, add_pred_div_succ k S h1, hS, worldAt_out_frame env p _ S hS h1]
    simp only [tmod_natCast]
    by_cases h : k % S = 0
    · have hk := add_pred_div_mul k S h1 h
      have hki : ((k : Int)) = (((k + S - 1) / S : Nat) : Int) * (S : Int) := by exact_mod_cast hk.symm
      rw [if_pos h, if_pos h, List.range_succ, List.map_append]
      simp only [List.map_cons, List.map_nil, startWorld, zero_add]
      rw [← hki]
      rfl
    · simp [h]

/-- The events of tick `i` are those of pass `i`. -/
theorem tickSlice_worldAt (env : Env) (p : RunParams) (sys : ChSystemDistributed) (k : Nat)
    (i : Nat) :
    tickSlice (worldAt env p (startWorld sys) k).log (i : Int)
      = if i < k then passEvents env p i (worldAt env p (startWorld sys) i) else [] := by
  induction k with
  | zero => simp [worldAt, startWorld, tickSlice]
  | succ k ih =>
    rw [tickSlice_succ, ih]
    by_cases h1 : i < k
    · have : ¬ ((k : Int) = (i : Int)) := by omega
      simp [h1, this, Nat.lt_succ_of_lt h1]
    · by_cases h2 : i = k
      · subst h2; simp
      · have : ¬ ((k : Int) = (i : Int)) := by omega
        have h3 : ¬ i < k + 1 := by omega
        simp [h1, this, h3]

/-- A fold whose step adds `c` to a measure adds `k * c` in `k` steps. -/
theorem foldl_range_measure {σ : Type} (μ : σ → Nat) (c : Nat) (g : Nat → σ → σ)
    (h : ∀ j s, μ (g j s) = μ s + c) (k : Nat) (s : σ) :
    μ ((List.range k).foldl (fun s j => g j s) s) = μ s + k * c := by
  induction k with
  | zero => simp
  | succ k ih => rw [List.range_succ, List.foldl_append]; simp [h, ih]; ring

/-- A fold whose step preserves a quantity preserves it. -/
theorem foldl_range_invariant {σ α : Type} (μ : σ → α) (g : Nat → σ → σ)
    (h : ∀ j s, μ (g j s) = μ s) (k : Nat) (s : σ) :
    μ ((List.range k).foldl (fun s j => g j s) s) = μ s := by
  induction k with
  | zero => simp
  | succ k ih => rw [List.range_succ, List.foldl_append]; simp [h, ih]

/-- The `iy` loop of `AddFallingBalls` returns a row of balls. -/
theorem iyLoop_eq (count_Y : Int) (fuel : Nat) (hf : (2 * count_Y + 1).toNat ≤ fuel) (z : ℚ)
    (ix : Int) (st : ChSystemDistributed × Int) :
    forLoop (fun iy : Int => decide (iy ≤ count_Y)) (fun iy => iy + 1)
        (fun iy (st : ChSystemDistributed × Int) =>
          let pos : ChVector := ⟨35 / 100 * ix, 35 / 100 * iy, z⟩
          some (st.1.AddBody ⟨st.2, pos, false⟩, st.2 + 1))
        fuel (-count_Y) st
      = some (addRow count_Y z ix st) := by
  have e : count_Y + 1 - -count_Y = 2 * count_Y + 1 := by ring
  have h := forLoop_count (count_Y + 1) (fun iy : Int => decide (iy ≤ count_Y))
    (fun a => by simp [Int.lt_add_one_iff])
    (fun iy (st : ChSystemDistributed × Int) =>
          let pos : ChVector := ⟨35 / 100 * ix, 35 / 100 * iy, z⟩
          some (st.1.AddBody ⟨st.2, pos, false⟩, st.2 + 1))
    (addBall z ix) (fun a s => rfl) fuel (-count_Y) st (by rw [e]; exact hf)
  rw [e] at h
  exact h

/-- The `ix` loop of `AddFallingBalls` returns a layer of balls. -/
theorem ixLoop_eq (count_X count_Y : Int) (fuel : Nat) (hx : (2 * count_X + 1).toNat ≤ fuel)
    (hy : (2 * count_Y + 1).toNat ≤ fuel) (z : ℚ) (st : ChSystemDistributed × Int) :
    forLoop (fun ix : Int => decide (ix ≤ count_X)) (fun ix => ix + 1)
        (fun ix st =>
          forLoop (fun iy : Int => decide (iy ≤ count_Y)) (fun iy => iy + 1)
            (fun iy (st : ChSystemDistributed × Int) =>
              let pos : ChVector := ⟨35 / 100 * ix, 35 / 100 * iy, z⟩
              some (st.1.AddBody ⟨st.2, pos, false⟩, st.2 + 1))
            fuel (-count_Y) st)
        fuel (-count_X) st
      = some (addLayer count_X count_Y z st) := by
  have e : count_X + 1 - -count_X = 2 * count_X + 1 := by ring
  have h := forLoop_count (count_X + 1) (fun ix : Int => decide (ix ≤ count_X))
    (fun a => by simp [Int.lt_add_one_iff])
    (fun ix st =>
          forLoop (fun iy : Int => decide (iy ≤ count_Y)) (fun iy => iy + 1)
            (fun iy (st : ChSystemDistributed × Int) =>
              let pos : ChVector := ⟨35 / 100 * ix, 35 / 100 * iy, z⟩
              some (st.1.AddBody ⟨st.2, pos, false⟩, st.2 + 1))
            fuel (-count_Y) st)
    (addRow count_Y z) (fun a s => iyLoop_eq count_Y fuel hy z a s) fuel (-count_X) st
    (by rw [e]; exact hx)
  rw [e] at h
  exact h

/-- The `j`-th value of the loop variable `z`. -/
theorem iterate_z (j : Nat) : (fun z : ℚ => z + 35 / 100)^[j] 10 = 10 + (j : ℚ) * (35 / 100) := by
  induction j with
  | zero => simp
  | succ j ih => rw [Function.iterate_succ_apply', ih]; push_cast; ring

/-- With enough fuel `AddFallingBalls` returns fifteen layers. -/
theorem AddFallingBalls_eq (count_X count_Y : Int) (fuel : Nat) (sys : ChSystemDistributed)
    (hz : 15 ≤ fuel) (hx : (2 * count_X + 1).toNat ≤ fuel) (hy : (2 * count_Y + 1).toNat ≤ fuel) :
    AddFallingBalls count_X count_Y fuel sys
      = some ((List.range 15).foldl
          (fun st (j : Nat) => addLayer count_X count_Y ((fun z : ℚ => z + 35 / 100)^[j] 10) st)
          (sys, 0)).1 := by
  show Option.map (fun st => st.1) (forLoop _ _ _ fuel 10 (sys, 0)) = _
  rw [forLoop_iterate _ _ _
    (addLayer count_X count_Y) (fun a s => ixLoop_eq count_X count_Y fuel hx hy a s) 15 fuel 10
    (sys, 0) ?_ ?_ hz]
  · rfl
  · intro j hj
    rw [iterate_z]
    have : (j : ℚ) ≤ 14 := by exact_mod_cast Nat.lt_succ_iff.mp hj
    simp only [decide_eq_true_eq]
    linarith
  · rw [iterate_z]
    norm_num

/-- One ball is one body. -/
theorem addBall_length (z : ℚ) (ix iy : Int) (st : ChSystemDistributed × Int) :
    (addBall z ix iy st).1.bodies.length = st.1.bodies.length + 1 := by
  simp [addBall, ChSystemDistributed.AddBody]

/-- The number of bodies in a row. -/
theorem addRow_length (count_Y : Int) (z : ℚ) (ix : Int) (st : ChSystemDistributed × Int) :
    (addRow count_Y z ix st).1.bodies.length
      = st.1.bodies.length + (2 * count_Y + 1).toNat * 1 :=
  foldl_range_measure (fun st : ChSystemDistributed × Int => st.1.bodies.length) 1
    (fun j st => addBall z ix (-count_Y + (j : Int)) st) (fun _ s => addBall_length _ _ _ s) _ st

/-- The number of bodies in a layer. -/
theorem addLayer_length (count_X count_Y : Int) (z : ℚ) (st : ChSystemDistributed × Int) :
    (addLayer count_X count_Y z st).1.bodies.length
      = st.1.bodies.length + (2 * count_X + 1).toNat * ((2 * count_Y + 1).toNat * 1) :=
  foldl_range_measure (fun st : ChSystemDistributed × Int => st.1.bodies.length) _
    (fun j st => addRow count_Y z (-count_X + (j : Int)) st) (fun _ s => addRow_length _ _ _ s) _ st

/-- Adding a layer leaves the gravity vector alone. -/
theorem addLayer_G_acc (count_X count_Y : Int) (z : ℚ) (st : ChSystemDistributed × Int) :
    (addLayer count_X count_Y z st).1.G_acc = st.1.G_acc :=
  foldl_range_invariant (fun st : ChSystemDistributed × Int => st.1.G_acc)
    (fun j st => addRow count_Y z (-count_X + (j : Int)) st)
    (fun j s => foldl_range_invariant (fun st : ChSystemDistributed × Int => st.1.G_acc)
      (fun j' st => addBall z (-count_X + (j : Int)) (-count_Y + (j' : Int)) st)
      (fun _ _ => rfl) _ s) _ st

/-- With enough fuel `AddFallingBalls` returns; it adds fifteen layers of
`(2 * count_X + 1) * (2 * count_Y + 1)` bodies and leaves the gravity vector alone. -/
theorem AddFallingBalls_spec (count_X count_Y : Int) (fuel : Nat) (sys : ChSystemDistributed)
    (hz : 15 ≤ fuel) (hx : (2 * count_X + 1).toNat ≤ fuel) (hy : (2 * count_Y + 1).toNat ≤ fuel) :
    ∃ sys', AddFallingBalls count_X count_Y fuel sys = some sys' ∧
      sys'.bodies.length
        = sys.bodies.length + 15 * ((2 * count_X + 1).toNat * (2 * count_Y + 1).toNat) ∧
      sys'.G_acc = sys.G_acc := by
  refine ⟨_, AddFallingBalls_eq count_X count_Y fuel sys hz hx hy, ?_, ?_⟩
  · have h := foldl_range_measure (fun st : ChSystemDistributed × Int => st.1.bodies.length)
      ((2 * count_X + 1).toNat * ((2 * count_Y + 1).toNat * 1))
      (fun j st => addLayer count_X count_Y ((fun z : ℚ => z + 35 / 100)^[j] 10) st)
      (fun _ s => addLayer_length _ _ _ s) 15 (sys, 0)
    simpa using h
  · exact foldl_range_invariant (fun st : ChSystemDistributed × Int => st.1.G_acc)
      (fun j st => addLayer count_X count_Y ((fun z : ℚ => z + 35 / 100)^[j] 10) st)
      (fun _ s => addLayer_G_acc _ _ _ s) 15 (sys, 0)

/-- The locals of the configured run, in exact arithmetic. -/
theorem configured_eq : configured = ⟨1 / 1000, 24000, 20, 2000, 8000, 12000, 16000⟩ := by
  have h1 : ⌈(24 : ℚ) / (1 / 1000)⌉ = 24000 := by rw [Int.ceil_eq_iff]; norm_num
  have h2 : ⌈(1 : ℚ) / (1 / 1000) / 50⌉ = 20 := by rw [Int.ceil_eq_iff]; norm_num
  have h3 : ⌈(2 : ℚ) / (1 / 1000)⌉ = 2000 := by rw [Int.ceil_eq_iff]; norm_num
  have h4 : ⌈(8 : ℚ) / (1 / 1000)⌉ = 8000 := by rw [Int.ceil_eq_iff]; norm_num
  have h5 : ⌈(12 : ℚ) / (1 / 1000)⌉ = 12000 := by rw [Int.ceil_eq_iff]; norm_num
  have h6 : ⌈(16 : ℚ) / (1 / 1000)⌉ = 16000 := by rw [Int.ceil_eq_iff]; norm_num
  simp only [configured, runParams, h1, h2, h3, h4, h5, h6]

/-- The gravity vector after pass `k`. -/
theorem worldAt_G_acc (env : Env) (p : RunParams) (w0 : World) (k : Nat) :
    (worldAt env p w0 (k + 1)).sys.G_acc = gravityAfter p k (worldAt env p w0 k).sys.G_acc := by
  simp [worldAt, loopPass_eq]

/-- For checkpoints in increasing order the gravity vector held at the physics step
of pass `k` follows the schedule. -/
theorem gravityAfter_worldAt (env : Env) (p : RunParams) (w0 : World)
    (h0 : 0 ≤ p.checkpoints_0) (h1 : p.checkpoints_0 < p.checkpoints_1)
    (h2 : p.checkpoints_1 < p.checkpoints_2) (h3 : p.checkpoints_2 < p.checkpoints_3) (k : Nat) :
    gravityAfter p k (worldAt env p w0 k).sys.G_acc = gravitySchedule p w0.sys.G_acc k := by
  induction k with
  | zero =>
    simp only [worldAt, gravityAfter, gravitySchedule, Nat.cast_zero]
    split_ifs <;> first | rfl | omega
  | succ k ih =>
    rw [worldAt_G_acc, ih]
    simp only [gravityAfter, gravitySchedule, Nat.cast_succ]
    split_ifs <;> first | rfl | omega

/-- The gravity vectors of all physics steps of the first `k` passes. -/
theorem stepGravity_worldAt (env : Env) (p : RunParams) (sys : ChSystemDistributed)
    (h0 : 0 ≤ p.checkpoints_0) (h1 : p.checkpoints_0 < p.checkpoints_1)
    (h2 : p.checkpoints_1 < p.checkpoints_2) (h3 : p.checkpoints_2 < p.checkpoints_3) (k : Nat) :
    stepGravity (worldAt env p (startWorld sys) k).log
      = (List.range k).map (fun j : Nat => ((j : Int), gravitySchedule p sys.G_acc j)) := by
  induction k with
  | zero => simp [worldAt, startWorld, stepGravity]
  | succ k ih =>
    rw [stepGravity_succ, ih, gravityAfter_worldAt env p _ h0 h1 h2 h3, List.range_succ,
      List.map_append]
    rfl

/-- For checkpoints in increasing order the first `k` passes apply exactly the
mutations whose checkpoint lies below `k`, each at its checkpoint. -/
theorem gravityCalls_worldAt (env : Env) (p : RunParams) (sys : ChSystemDistributed)
    (h0 : 0 ≤ p.checkpoints_0) (h1 : p.checkpoints_0 < p.checkpoints_1)
    (h2 : p.checkpoints_1 < p.checkpoints_2) (h3 : p.checkpoints_2 < p.checkpoints_3) (k : Nat) :
    gravityCalls (worldAt env p (startWorld sys) k).log
      = (if p.checkpoints_0 < k then [(p.checkpoints_0, (⟨-5, 0, -10⟩ : ChVector))] else [])
        ++ (if p.checkpoints_1 < k then [(p.checkpoints_1, (⟨0, 5, -10⟩ : ChVector))] else [])
        ++ (if p.checkpoints_2 < k then [(p.checkpoints_2, (⟨5, 0, -10⟩ : ChVector))] else [])
        ++ (if p.checkpoints_3 < k then [(p.checkpoints_3, (⟨0, -5, -10⟩ : ChVector))] else []) := by
  induction k with
  | zero =>
    simp only [worldAt, startWorld, gravityCalls, List.filterMap_nil, Nat.cast_zero]
    rw [if_neg (by omega), if_neg (by omega), if_neg (by omega), if_neg (by omega)]
    rfl
  | succ k ih =>
    rw [gravityCalls_succ, ih]
    simp only [Nat.cast_succ]
    by_cases a0 : (k : Int) = p.checkpoints_0
    · have b0 : ¬ p.checkpoints_0 < (k : Int) := by omega
      have b1 : ¬ p.checkpoints_1 < (k : Int) := by omega
      have b2 : ¬ p.checkpoints_2 < (k : Int) := by omega
      have b3 : ¬ p.checkpoints_3 < (k : Int) := by omega
      have c0 : p.checkpoints_0 < (k : Int) + 1 := by omega
      have c1 : ¬ p.checkpoints_1 < (k : Int) + 1 := by omega
      have c2 : ¬ p.checkpoints_2 < (k : Int) + 1 := by omega
      have c3 : ¬ p.checkpoints_3 < (k : Int) + 1 := by omega
      have d1 : ¬ (k : Int) = p.checkpoints_1 := by omega
      have d2 : ¬ (k : Int) = p.checkpoints_2 := by omega
      have d3 : ¬ (k : Int) = p.checkpoints_3 := by omega
      simp only [if_pos a0, if_neg b0, if_neg b1, if_neg b2, if_neg b3, if_pos c0, if_neg c1,
        if_neg c2, if_neg c3, if_neg d1, if_neg d2, if_neg d3, List.append_nil, List.nil_append, List.append_assoc]
      rw [a0]
    · by_cases a1 : (k : Int) = p.checkpoints_1
      · have b0 : p.checkpoints_0 < (k : Int) := by omega
        have b1 : ¬ p.checkpoints_1 < (k : Int) := by omega
        have b2 : ¬ p.checkpoints_2 < (k : Int) := by omega
        have b3 : ¬ p.checkpoints_3 < (k : Int) := by omega
        have c0 : p.checkpoints_0 < (k : Int) + 1 := by omega
        have c1 : p.checkpoints_1 < (k : Int) + 1 := by omega
        have c2 : ¬ p.checkpoints_2 < (k : Int) + 1 := by omega
        have c3 : ¬ p.checkpoints_3 < (k : Int) + 1 := by omega
        have d2 : ¬ (k : Int) = p.checkpoints_2 := by omega
        have d3 : ¬ (k : Int) = p.checkpoints_3 := by omega
        simp only [if_neg a0, if_pos a1, if_pos b0, if_neg b1, if_neg b2, if_neg b3, if_pos c0,
          if_pos c1, if_neg c2, if_neg c3, if_neg d2, if_neg d3, List.append_nil, List.nil_append, List.append_assoc]
        rw [a1]
      · by_cases a2 : (k : Int) = p.checkpoints_2
        · have b0 : p.checkpoints_0 < (k : Int) := by omega
          have b1 : p.checkpoints_1 < (k : Int) := by omega
          have b2 : ¬ p.checkpoints_2 < (k : Int) := by omega
          have b3 : ¬ p.checkpoints_3 < (k : Int) := by omega
          have c0 : p.checkpoints_0 < (k : Int) + 1 := by omega
          have c1 : p.checkpoints_1 < (k : Int) + 1 := by omega
          have c2 : p.checkpoints_2 < (k : Int) + 1 := by omega
          have c3 : ¬ p.checkpoints_3 < (k : Int) + 1 := by omega
          have d3 : ¬ (k : Int) = p.checkpoints_3 := by omega
          simp only [if_neg a0, if_neg a1, if_pos a2, if_pos b0, if_pos b1, if_neg b2, if_neg b3,
            if_pos c0, if_pos c1, if_pos c2, if_neg c3, if_neg d3, List.append_nil, List.nil_append, List.append_assoc]
          rw [a2]
        · by_cases a3 : (k : Int) = p.checkpoints_3
          · have b0 : p.checkpoints_0 < (k : Int) := by omega
            have b1 : p.checkpoints_1 < (k : Int) := by omega
            have b2 : p.checkpoints_2 < (k : Int) := by omega
            have b3 : ¬ p.checkpoints_3 < (k : Int) := by omega
            have c0 : p.checkpoints_0 < (k : Int) + 1 := by omega
            have c1 : p.checkpoints_1 < (k : Int) + 1 := by omega
            have c2 : p.checkpoints_2 < (k : Int) + 1 := by omega
            have c3 : p.checkpoints_3 < (k : Int) + 1 := by omega
            simp only [if_neg a0, if_neg a1, if_neg a2, if_pos a3, if_pos b0, if_pos b1, if_pos b2,
              if_neg b3, if_pos c0, if_pos c1, if_pos c2, if_pos c3, List.append_nil, List.nil_append, List.append_assoc]
            rw [a3]
          · have e0 : (p.checkpoints_0 < (k : Int) + 1) = (p.checkpoints_0 < (k : Int)) := by
              apply propext; constructor <;> intro h <;> omega
            have e1 : (p.checkpoints_1 < (k : Int) + 1) = (p.checkpoints_1 < (k : Int)) := by
              apply propext; constructor <;> intro h <;> omega
            have e2 : (p.checkpoints_2 < (k : Int) + 1) = (p.checkpoints_2 < (k : Int)) := by
              apply propext; constructor <;> intro h <;> omega
            have e3 : (p.checkpoints_3 < (k : Int) + 1) = (p.checkpoints_3 < (k : Int)) := by
              apply propext; constructor <;> intro h <;> omega
            simp only [if_neg a0, if_neg a1, if_neg a2, if_neg a3, List.append_nil, e0, e1, e2, e3]

/-- How often each mutation has been applied after `k` passes. -/
theorem timesApplied_le_one (env : Env) (p : RunParams) (w0 : World) (hw : w0.log = []) (k : Nat) :
    (timesApplied (worldAt env p w0 k).log ⟨-5, 0, -10⟩
        = if 0 ≤ p.checkpoints_0 ∧ p.checkpoints_0 < k then 1 else 0) ∧
    (timesApplied (worldAt env p w0 k).log ⟨0, 5, -10⟩
        = if 0 ≤ p.checkpoints_1 ∧ p.checkpoints_1 < k then 1 else 0) ∧
    (timesApplied (worldAt env p w0 k).log ⟨5, 0, -10⟩
        = if 0 ≤ p.checkpoints_2 ∧ p.checkpoints_2 < k then 1 else 0) ∧
    (timesApplied (worldAt env p w0 k).log ⟨0, -5, -10⟩
        = if 0 ≤ p.checkpoints_3 ∧ p.checkpoints_3 < k then 1 else 0) := by
  induction k with
  | zero =>
    simp only [worldAt, hw, timesApplied, gravityCalls, List.filterMap_nil, List.filter_nil,
      List.length_nil, Nat.cast_zero]
    refine ⟨?_, ?_, ?_, ?_⟩ <;> (rw [if_neg]; omega)
  | succ k ih =>
    obtain ⟨i0, i1, i2, i3⟩ := ih
    simp only [timesApplied, gravityCalls_succ, List.filter_append, List.length_append] at i0 i1 i2 i3 ⊢
    rw [i0, i1, i2, i3]
    simp only [Nat.cast_succ]
    refine ⟨?_, ?_, ?_, ?_⟩ <;>
    · split_ifs <;> simp [List.filter] <;> first | omega | norm_num

/-- The events of a pass are in the phase order of the source. -/
theorem sourcePhaseOrder_passEvents (env : Env) (p : RunParams) (i : Int) (w : World) :
    sourcePhaseOrder (passEvents env p i w) = true := by
  simp only [passEvents, outputEvents, checkpointEvents]
  split_ifs <;> rfl

/-- A pass has one physics step and one telemetry row. -/
theorem count_passEvents (env : Env) (p : RunParams) (i : Int) (w : World) :
    ((passEvents env p i w).filter isStep).length = 1 ∧
    ((passEvents env p i w).filter isTelemetry).length = 1 := by
  simp only [passEvents, outputEvents, checkpointEvents]
  split_ifs <;> exact ⟨rfl, rfl⟩

/-- Membership in `outputCalls` is membership of the call in the log. -/
theorem mem_outputCalls (log : List (Int × Event)) (i f : Int) (t : ℚ) :
    (i, f, t) ∈ outputCalls log ↔ (i, Event.callOutputData f t) ∈ log := by
  simp only [outputCalls, List.mem_filterMap]
  constructor
  · rintro ⟨⟨j, e⟩, he, h⟩
    cases e <;> simp at h
    obtain ⟨rfl, rfl, rfl⟩ := h
    exact he
  · intro h
    exact ⟨_, h, rfl⟩

/-- Each call of `OutputData` receives the clock of its tick. -/
theorem outputCalls_time (env : Env) (p : RunParams) (w0 : World) (hw : w0.log = []) (k : Nat) :
    ∀ c ∈ outputCalls (worldAt env p w0 k).log, c.2.2 = w0.time + (c.1 : ℚ) * p.time_step := by
  induction k with
  | zero => simp [worldAt, hw, outputCalls]
  | succ k ih =>
    intro c hc
    rw [outputCalls_succ, List.mem_append] at hc
    rcases hc with hc | hc
    · exact ih c hc
    · split_ifs at hc
      · simp only [List.mem_singleton] at hc
        subst hc
        simp [worldAt_time]
      · simp at hc

/-- The ticks at which `OutputData` is called. -/
theorem outputCalls_tick (env : Env) (p : RunParams) (w0 : World) (hw : w0.log = []) (k : Nat)
    (i : Int) :
    (∃ f t, (i, f, t) ∈ outputCalls (worldAt env p w0 k).log)
      ↔ (0 ≤ i ∧ i < k ∧ Int.tmod i p.out_steps = 0) := by
  induction k with
  | zero =>
    simp only [worldAt, hw, outputCalls, List.filterMap_nil, List.not_mem_nil, exists_false,
      Nat.cast_zero, false_iff]
    omega
  | succ k ih =>
    simp only [outputCalls_succ, List.mem_append, exists_or, ih, Nat.cast_succ]
    constructor
    · rintro (⟨h1, h2, h3⟩ | ⟨f, t, h⟩)
      · exact ⟨h1, by omega, h3⟩
      · split_ifs at h with hk
        · simp only [List.mem_singleton, Prod.mk.injEq] at h
          obtain ⟨rfl, -, -⟩ := h
          exact ⟨by omega, by omega, hk⟩
        · simp at h
    · rintro ⟨h1, h2, h3⟩
      by_cases hik : i = k
      · right
        subst hik
        exact ⟨_, _, by rw [if_pos h3]; exact List.mem_singleton.mpr rfl⟩
      · left
        exact ⟨h1, by omega, h3⟩

/-- With enough fuel the set-up of `main` returns, with the initial gravity vector. -/
theorem setup_eq (env : Env) (fuel : Nat) (hf : 21 ≤ fuel) :
    ∃ sys, setup env fuel = some sys ∧ sys.G_acc = ⟨1 / 100, 1 / 100, -98 / 10⟩ := by
  obtain ⟨sys, h1, -, h3⟩ := AddFallingBalls_spec count_X count_Y fuel
    (AddContainer (env.sys0.Set_G_acc ⟨1 / 100, 1 / 100, -98 / 10⟩)) (by omega)
    (by simp [count_X]; omega) (by simp [count_Y]; omega)
  exact ⟨sys, h1, h3⟩

/-- With fuel 24000 or more `main` returns the world reached after 24000 passes. -/
theorem main_eq (env : Env) (fuel : Nat) (hf : 24000 ≤ fuel) :
    ∃ sys, sys.G_acc = ⟨1 / 100, 1 / 100, -98 / 10⟩ ∧
      main env fuel = some (worldAt env configured (startWorld sys) 24000) := by
  obtain ⟨sys, h1, h2⟩ := setup_eq env fuel (by omega)
  refine ⟨sys, h2, ?_⟩
  have h := simulationLoop_eq env configured fuel (startWorld sys)
    (by rw [configured_eq]; decide) (by rw [configured_eq]; simpa using hf)
  have hn : configured.num_steps.toNat = 24000 := by rw [configured_eq]; rfl
  rw [hn] at h
  simp only [main, h1]
  exact h

/-- Evaluating the checkpoint statements twice gives the same gravity vector. -/
theorem gravityAfter_idem (p : RunParams) (i : Int) (g : ChVector) :
    gravityAfter p i (gravityAfter p i g) = gravityAfter p i g := by
  simp only [gravityAfter]
  split_ifs <;> rfl

/-! ## The claims -/

/-- Claim C1: with a non-zero sample interval and enough fuel the stepping loop returns, and it
calls `DoStepDynamics` exactly once for each tick `0, 1, ..., num_steps - 1`, in increasing
order, and for no other tick; in the configured run `num_steps = ceil(24 / 0.001) = 24000`,
and `main` returns with exactly these 24000 calls. -/
theorem C1_physics_step_once_per_tick (env : Env) (p : RunParams) (sys : ChSystemDistributed)
    (fuel : Nat) (hs : p.out_steps ≠ 0) (hfuel : p.num_steps.toNat ≤ fuel)
    (hmain : 24000 ≤ fuel) :
    (∃ w, simulationLoop env p fuel (startWorld sys) = some w ∧
      stepTicks w.log = (List.range p.num_steps.toNat).map Int.ofNat) ∧
    configured.num_steps = ⌈(24 : ℚ) / (1 / 1000)⌉ ∧ configured.num_steps = 24000 ∧
    (∃ w, main env fuel = some w ∧ stepTicks w.log = (List.range 24000).map Int.ofNat) := by
  refine ⟨⟨_, simulationLoop_eq env p fuel _ hs hfuel, stepTicks_worldAt env p sys _⟩, rfl,
    by rw [configured_eq], ?_⟩
  obtain ⟨sys', -, h⟩ := main_eq env fuel hmain
  exact ⟨_, h, stepTicks_worldAt env configured sys' _⟩

/-- Witness for claim C1: the small run of five ticks, with fuel 24000. -/
theorem C1_physics_step_once_per_tick_witness :
    (smallRun.out_steps ≠ 0 ∧ smallRun.num_steps.toNat ≤ 24000 ∧ 24000 ≤ 24000) ∧
    ((∃ w, simulationLoop env0 smallRun 24000 (startWorld env0.sys0) = some w ∧
      stepTicks w.log = (List.range smallRun.num_steps.toNat).map Int.ofNat) ∧
    configured.num_steps = ⌈(24 : ℚ) / (1 / 1000)⌉ ∧ configured.num_steps = 24000 ∧
    (∃ w, main env0 24000 = some w ∧ stepTicks w.log = (List.range 24000).map Int.ofNat)) :=
  ⟨⟨by decide, by decide, by decide⟩,
    C1_physics_step_once_per_tick env0 smallRun env0.sys0 24000 (by decide) (by decide)
      (by decide)⟩

/-- Claim C2: for a sample interval `out_steps >= 1` and `num_steps >= 0`, the stepping loop calls
`OutputData` at tick `i` exactly when `0 <= i < num_steps` and `i % out_steps == 0`, and the
number of calls is `ceil(num_steps / out_steps)`; the configured run makes 1200 calls. -/
theorem C2_output_on_sample_ticks (env : Env) (p : RunParams) (sys : ChSystemDistributed)
    (fuel : Nat) (hs : 1 ≤ p.out_steps) (hn : 0 ≤ p.num_steps)
    (hfuel : p.num_steps.toNat ≤ fuel) (hmain : 24000 ≤ fuel) :
    (∃ w, simulationLoop env p fuel (startWorld sys) = some w ∧
      (∀ i : Int, (∃ f t, (i, Event.callOutputData f t) ∈ w.log)
          ↔ (0 ≤ i ∧ i < p.num_steps ∧ Int.tmod i p.out_steps = 0)) ∧
      ((outputCalls w.log).length : Int) = ⌈(p.num_steps : ℚ) / (p.out_steps : ℚ)⌉) ∧
    (∃ w, main env fuel = some w ∧ (outputCalls w.log).length = 1200) ∧
    configured.num_steps = 24000 ∧ configured.out_steps = 20 := by
  obtain ⟨N, hN⟩ := Int.eq_ofNat_of_zero_le hn
  obtain ⟨S, hS⟩ := Int.eq_ofNat_of_zero_le (show 0 ≤ p.out_steps by omega)
  have hNn : p.num_steps.toNat = N := by rw [hN]; exact Int.toNat_ofNat N
  have hS1 : 1 ≤ S := by omega
  refine ⟨⟨_, simulationLoop_eq env p fuel _ (by omega) hfuel, ?_, ?_⟩, ?_,
    by rw [configured_eq], by rw [configured_eq]⟩
  · intro i
    have h := outputCalls_tick env p (startWorld sys) rfl N i
    rw [← hN] at h
    rw [hNn, ← h]
    simp only [mem_outputCalls]
  · rw [hNn, outputCalls_worldAt env p sys S hS hS1, List.length_map, List.length_range,
      ← ceil_div_natCast N S hS1, hN, hS, Int.cast_natCast, Int.cast_natCast]
  · obtain ⟨sys', -, h⟩ := main_eq env fuel hmain
    refine ⟨_, h, ?_⟩
    rw [outputCalls_worldAt env configured sys' 20 (by rw [configured_eq]; rfl) (by decide),
      List.length_map, List.length_range]

/-- Witness for claim C2: the small run (five ticks, output every second tick), with fuel 24000. -/
theorem C2_output_on_sample_ticks_witness :
    (1 ≤ smallRun.out_steps ∧ 0 ≤ smallRun.num_steps ∧ smallRun.num_steps.toNat ≤ 24000
      ∧ 24000 ≤ 24000) ∧
    ((∃ w, simulationLoop env0 smallRun 24000 (startWorld env0.sys0) = some w ∧
      (∀ i : Int, (∃ f t, (i, Event.callOutputData f t) ∈ w.log)
          ↔ (0 ≤ i ∧ i < smallRun.num_steps ∧ Int.tmod i smallRun.out_steps = 0)) ∧
      ((outputCalls w.log).length : Int)
        = ⌈(smallRun.num_steps : ℚ) / (smallRun.out_steps : ℚ)⌉) ∧
    (∃ w, main env0 24000 = some w ∧ (outputCalls w.log).length = 1200) ∧
    configured.num_steps = 24000 ∧ configured.out_steps = 20) :=
  ⟨⟨by decide, by decide, by decide, by decide⟩,
    C2_output_on_sample_ticks env0 smallRun env0.sys0 24000 (by decide) (by decide) (by decide)
      (by decide)⟩

/-- Claim C3: in the configured run the trigger ticks `ceil(T / 0.001)` for `T = 2, 8, 12, 16` are
2000, 8000, 12000 and 16000; `main` returns; over the whole run `Set_G_acc` is called exactly
four times, once per mutation and at its trigger tick; and the gravity vector the system holds
at the physics step of tick `i` is the initial `(0.01, 0.01, -9.8)` for `i < 2000` and otherwise
the vector of the latest trigger tick not after `i`. -/
theorem C3_checkpoints_configured_run (env : Env) (fuel : Nat) (hmain : 24000 ≤ fuel) :
    (configured.checkpoints_0 = ⌈(2 : ℚ) / (1 / 1000)⌉ ∧ configured.checkpoints_0 = 2000) ∧
    (configured.checkpoints_1 = ⌈(8 : ℚ) / (1 / 1000)⌉ ∧ configured.checkpoints_1 = 8000) ∧
    (configured.checkpoints_2 = ⌈(12 : ℚ) / (1 / 1000)⌉ ∧ configured.checkpoints_2 = 12000) ∧
    (configured.checkpoints_3 = ⌈(16 : ℚ) / (1 / 1000)⌉ ∧ configured.checkpoints_3 = 16000) ∧
    ∃ w, main env fuel = some w ∧
      gravityCalls w.log
        = [(2000, ⟨-5, 0, -10⟩), (8000, ⟨0, 5, -10⟩), (12000, ⟨5, 0, -10⟩),
           (16000, ⟨0, -5, -10⟩)] ∧
      stepGravity w.log
        = (List.range 24000).map (fun j : Nat => ((j : Int), gravityInEffect j)) := by
  refine ⟨⟨rfl, by rw [configured_eq]⟩, ⟨rfl, by rw [configured_eq]⟩,
    ⟨rfl, by rw [configured_eq]⟩, ⟨rfl, by rw [configured_eq]⟩, ?_⟩
  obtain ⟨sys', hg, h⟩ := main_eq env fuel hmain
  have c0 : (0 : Int) ≤ configured.checkpoints_0 := by rw [configured_eq]; decide
  have c1 : configured.checkpoints_0 < configured.checkpoints_1 := by rw [configured_eq]; decide
  have c2 : configured.checkpoints_1 < configured.checkpoints_2 := by rw [configured_eq]; decide
  have c3 : configured.checkpoints_2 < configured.checkpoints_3 := by rw [configured_eq]; decide
  refine ⟨_, h, ?_, ?_⟩
  · rw [gravityCalls_worldAt env configured sys' c0 c1 c2 c3, configured_eq]
    rfl
  · rw [stepGravity_worldAt env configured sys' c0 c1 c2 c3, hg, configured_eq]
    rfl

/-- Witness for claim C3: the sample process with fuel 24000. -/
theorem C3_checkpoints_configured_run_witness :
    24000 ≤ 24000 ∧
    ((configured.checkpoints_0 = ⌈(2 : ℚ) / (1 / 1000)⌉ ∧ configured.checkpoints_0 = 2000) ∧
    (configured.checkpoints_1 = ⌈(8 : ℚ) / (1 / 1000)⌉ ∧ configured.checkpoints_1 = 8000) ∧
    (configured.checkpoints_2 = ⌈(12 : ℚ) / (1 / 1000)⌉ ∧ configured.checkpoints_2 = 12000) ∧
    (configured.checkpoints_3 = ⌈(16 : ℚ) / (1 / 1000)⌉ ∧ configured.checkpoints_3 = 16000) ∧
    ∃ w, main env0 24000 = some w ∧
      gravityCalls w.log
        = [(2000, ⟨-5, 0, -10⟩), (8000, ⟨0, 5, -10⟩), (12000, ⟨5, 0, -10⟩),
           (16000, ⟨0, -5, -10⟩)] ∧
      stepGravity w.log
        = (List.range 24000).map (fun j : Nat => ((j : Int), gravityInEffect j))) :=
  ⟨by decide, C3_checkpoints_configured_run env0 24000 (by decide)⟩

/-- Claim C4 (as stated) fails: at tick 2000 of the configured run the output call comes before the
checkpoint application, and the telemetry row comes before the physics step. -/
theorem C4_counterexample :
    ∃ w, main env0 24000 = some w ∧
      claimedPhaseOrder (tickSlice w.log 2000) = false ∧
      allBefore isCheckpoint isOutput (tickSlice w.log 2000) = false ∧
      allBefore isStep isTelemetry (tickSlice w.log 2000) = false := by
  obtain ⟨sys, -, h⟩ := main_eq env0 24000 (le_refl _)
  refine ⟨_, h, ?_⟩
  have e : tickSlice (worldAt env0 configured (startWorld sys) 24000).log 2000
      = passEvents env0 configured ((2000 : Nat) : Int)
          (worldAt env0 configured (startWorld sys) 2000) := by
    have e' := tickSlice_worldAt env0 configured sys 24000 2000
    rw [if_pos (by decide)] at e'
    exact e'
  rw [e, configured_eq]
  simp only [passEvents, outputEvents, checkpointEvents]
  exact ⟨rfl, rfl, rfl⟩

/-- Claim C4 (amended): with a non-zero sample interval and enough fuel the stepping loop returns,
and within every tick the phases occur in the order output (`OutputData`), checkpoint
applications (`Set_G_acc`), telemetry (`Monitor`), physics step (`DoStepDynamics`); every tick
has exactly one telemetry row and exactly one physics step. -/
theorem C4_phase_order_of_source (env : Env) (p : RunParams) (sys : ChSystemDistributed)
    (fuel : Nat) (hs : p.out_steps ≠ 0) (hfuel : p.num_steps.toNat ≤ fuel) :
    ∃ w, simulationLoop env p fuel (startWorld sys) = some w ∧
      ∀ i : Int, 0 ≤ i → i < p.num_steps →
        sourcePhaseOrder (tickSlice w.log i) = true ∧
        ((tickSlice w.log i).filter isTelemetry).length = 1 ∧
        ((tickSlice w.log i).filter isStep).length = 1 := by
  refine ⟨_, simulationLoop_eq env p fuel _ hs hfuel, ?_⟩
  intro i h0 h1
  obtain ⟨k, rfl⟩ := Int.eq_ofNat_of_zero_le h0
  rw [tickSlice_worldAt, if_pos (by omega)]
  exact ⟨sourcePhaseOrder_passEvents _ _ _ _, (count_passEvents _ _ _ _).2,
    (count_passEvents _ _ _ _).1⟩

/-- Witness for claim C4 (amended): the small run of five ticks with fuel 5. -/
theorem C4_phase_order_of_source_witness :
    (smallRun.out_steps ≠ 0 ∧ smallRun.num_steps.toNat ≤ 5) ∧
    ∃ w, simulationLoop env0 smallRun 5 (startWorld env0.sys0) = some w ∧
      ∀ i : Int, 0 ≤ i → i < smallRun.num_steps →
        sourcePhaseOrder (tickSlice w.log i) = true ∧
        ((tickSlice w.log i).filter isTelemetry).length = 1 ∧
        ((tickSlice w.log i).filter isStep).length = 1 :=
  ⟨⟨by decide, by decide⟩,
    C4_phase_order_of_source env0 smallRun env0.sys0 5 (by decide) (by decide)⟩

/-- Claim C5: for a positive tick duration and a positive frame rate the sample interval
`out_steps = ceil((1 / time_step) / out_fps)` is at least 1; it is 1 whenever the frame rate is
at least the tick rate `1 / time_step`; and it is 20 for `time_step = 0.001`, `out_fps = 50`. -/
theorem C5_sample_interval (time_step time_end out_fps : ℚ) (ht : 0 < time_step)
    (hf : 0 < out_fps) :
    (runParams time_step time_end out_fps).out_steps = ⌈(1 / time_step) / out_fps⌉ ∧
    1 ≤ (runParams time_step time_end out_fps).out_steps ∧
    (1 / time_step ≤ out_fps → (runParams time_step time_end out_fps).out_steps = 1) ∧
    (runParams (1 / 1000) time_end 50).out_steps = 20 := by
  have hpos : 0 < (1 / time_step) / out_fps := div_pos (one_div_pos.mpr ht) hf
  refine ⟨rfl, ?_, ?_, ?_⟩
  · exact Int.one_le_ceil_iff.mpr hpos
  · intro h
    show ⌈(1 / time_step) / out_fps⌉ = 1
    rw [Int.ceil_eq_iff]
    refine ⟨by simpa using hpos, ?_⟩
    rw [div_le_iff₀ hf]
    simpa using h
  · show ⌈(1 / (1 / 1000 : ℚ)) / 50⌉ = 20
    rw [Int.ceil_eq_iff]
    norm_num

/-- Witness for claim C5: the configured values. -/
theorem C5_sample_interval_witness :
    ((0 : ℚ) < 1 / 1000 ∧ (0 : ℚ) < 50) ∧
    ((runParams (1 / 1000) 24 50).out_steps = ⌈(1 / (1 / 1000 : ℚ)) / 50⌉ ∧
    1 ≤ (runParams (1 / 1000) 24 50).out_steps ∧
    (1 / (1 / 1000 : ℚ) ≤ 50 → (runParams (1 / 1000) 24 50).out_steps = 1) ∧
    (runParams (1 / 1000) 24 50).out_steps = 20) :=
  ⟨⟨by norm_num, by norm_num⟩, C5_sample_interval (1 / 1000) 24 50 (by norm_num) (by norm_num)⟩

/-- Claim C6: the clock starts at 0; the output statement and the checkpoint statements leave it
alone and one pass of the loop body adds `time_step` to it exactly once; at the head of the
loop with counter `k` it equals `k * time_step`; it is strictly increasing for a positive
`time_step`; with enough fuel the loop returns the world reached after `num_steps` passes,
whose clock is `num_steps * time_step`; and every call of `OutputData` at tick `i` receives
the time `i * time_step`. -/
theorem C6_clock_invariant (env : Env) (p : RunParams) (sys : ChSystemDistributed)
    (fuel : Nat) (hs : p.out_steps ≠ 0) (hn : 0 ≤ p.num_steps)
    (hfuel : p.num_steps.toNat ≤ fuel) :
    (startWorld sys).time = 0 ∧
    (∀ (i : Int) (w : World), (outputBlock env p i w).time = w.time ∧
      (applyCheckpoints p i w).time = w.time ∧
      (loopPass env p i w).time = w.time + p.time_step) ∧
    (∀ k : Nat, (worldAt env p (startWorld sys) k).time = (k : ℚ) * p.time_step) ∧
    (0 < p.time_step → StrictMono fun k : Nat => (worldAt env p (startWorld sys) k).time) ∧
    ∃ w, simulationLoop env p fuel (startWorld sys) = some w ∧
      w = worldAt env p (startWorld sys) p.num_steps.toNat ∧
      w.time = (p.num_steps : ℚ) * p.time_step ∧
      ∀ (i f : Int) (t : ℚ), (i, Event.callOutputData f t) ∈ w.log →
        t = (i : ℚ) * p.time_step := by
  have ht : ∀ k : Nat, (worldAt env p (startWorld sys) k).time = (k : ℚ) * p.time_step := by
    intro k
    rw [worldAt_time]
    simp [startWorld]
  refine ⟨rfl, ?_, ht, ?_, _, simulationLoop_eq env p fuel _ hs hfuel, rfl, ?_, ?_⟩
  · intro i w
    exact ⟨by rw [outputBlock_eq], by rw [applyCheckpoints_eq], by rw [loopPass_eq]⟩
  · intro hpos
    apply strictMono_nat_of_lt_succ
    intro k
    simp only [ht]
    push_cast
    linarith
  · obtain ⟨N, hN⟩ := Int.eq_ofNat_of_zero_le hn
    have hNn : p.num_steps.toNat = N := by rw [hN]; exact Int.toNat_ofNat N
    rw [ht, hNn, hN, Int.cast_natCast]
  · intro i f t h
    have h' := outputCalls_time env p (startWorld sys) rfl _ _ ((mem_outputCalls _ _ _ _).mpr h)
    simpa [startWorld] using h'

/-- Witness for claim C6: the small run of five ticks with fuel 5. -/
theorem C6_clock_invariant_witness :
    (smallRun.out_steps ≠ 0 ∧ 0 ≤ smallRun.num_steps ∧ smallRun.num_steps.toNat ≤ 5) ∧
    ((startWorld env0.sys0).time = 0 ∧
    (∀ (i : Int) (w : World), (outputBlock env0 smallRun i w).time = w.time ∧
      (applyCheckpoints smallRun i w).time = w.time ∧
      (loopPass env0 smallRun i w).time = w.time + smallRun.time_step) ∧
    (∀ k : Nat,
      (worldAt env0 smallRun (startWorld env0.sys0) k).time = (k : ℚ) * smallRun.time_step) ∧
    (0 < smallRun.time_step →
      StrictMono fun k : Nat => (worldAt env0 smallRun (startWorld env0.sys0) k).time) ∧
    ∃ w, simulationLoop env0 smallRun 5 (startWorld env0.sys0) = some w ∧
      w = worldAt env0 smallRun (startWorld env0.sys0) smallRun.num_steps.toNat ∧
      w.time = (smallRun.num_steps : ℚ) * smallRun.time_step ∧
      ∀ (i f : Int) (t : ℚ), (i, Event.callOutputData f t) ∈ w.log →
        t = (i : ℚ) * smallRun.time_step) :=
  ⟨⟨by decide, by decide, by decide⟩,
    C6_clock_invariant env0 smallRun env0.sys0 5 (by decide) (by decide) (by decide)⟩

/-- Claim C7: for `out_steps >= 1` and `num_steps >= 0` the frame counter starts at 0 and one pass
of the loop body increments it by 1 exactly when the output fires; with enough fuel the loop
returns, the calls of `OutputData` are, in order, the `k`-th at tick `k * out_steps` with frame
index `k` for `k = 0, ..., ceil(num_steps / out_steps) - 1`, the `k`-th file written is
`"data"` followed by the decimal rendering of `k`, and the counter ends at
`ceil(num_steps / out_steps)`. -/
theorem C7_frame_indices (env : Env) (p : RunParams) (sys : ChSystemDistributed)
    (fuel : Nat) (hs : 1 ≤ p.out_steps) (hn : 0 ≤ p.num_steps)
    (hfuel : p.num_steps.toNat ≤ fuel) :
    (startWorld sys).out_frame = 0 ∧
    (∀ (i : Int) (w : World), (loopPass env p i w).out_frame
        = w.out_frame + if Int.tmod i p.out_steps = 0 then 1 else 0) ∧
    ∃ w, simulationLoop env p fuel (startWorld sys) = some w ∧
      (outputCalls w.log).map (fun c => (c.1, c.2.1))
        = (List.range ⌈(p.num_steps : ℚ) / (p.out_steps : ℚ)⌉.toNat).map
            (fun k : Nat => ((k : Int) * p.out_steps, (k : Int))) ∧
      csvWrites w.log
        = (List.range ⌈(p.num_steps : ℚ) / (p.out_steps : ℚ)⌉.toNat).map
            (fun k : Nat => ((k : Int) * p.out_steps,
              (if env.num_ranks = 1 then "../reference" else "../granular"),
              "data" ++ Nat.repr k)) ∧
      w.out_frame = ⌈(p.num_steps : ℚ) / (p.out_steps : ℚ)⌉ := by
  obtain ⟨N, hN⟩ := Int.eq_ofNat_of_zero_le hn
  obtain ⟨S, hS⟩ := Int.eq_ofNat_of_zero_le (show 0 ≤ p.out_steps by omega)
  have hNn : p.num_steps.toNat = N := by rw [hN]; exact Int.toNat_ofNat N
  have hS1 : 1 ≤ S := by omega
  have hc : ⌈(p.num_steps : ℚ) / (p.out_steps : ℚ)⌉ = (((N + S - 1) / S : Nat) : Int) := by
    rw [← ceil_div_natCast N S hS1, hN, hS, Int.cast_natCast, Int.cast_natCast]
  refine ⟨rfl, fun i w => by rw [loopPass_eq], _,
    simulationLoop_eq env p fuel _ (by omega) hfuel, ?_, ?_, ?_⟩
  · rw [hNn, outputCalls_worldAt env p sys S hS hS1, hc, Int.toNat_ofNat, List.map_map]
    rfl
  · rw [hNn, csvWrites_worldAt env p sys S hS hS1, hc, Int.toNat_ofNat]
  · rw [hNn, worldAt_out_frame env p _ S hS hS1, hc]
    simp [startWorld]

/-- Witness for claim C7: the small run (five ticks, output every second tick) with fuel 5. -/
theorem C7_frame_indices_witness :
    (1 ≤ smallRun.out_steps ∧ 0 ≤ smallRun.num_steps ∧ smallRun.num_steps.toNat ≤ 5) ∧
    ((startWorld env0.sys0).out_frame = 0 ∧
    (∀ (i : Int) (w : World), (loopPass env0 smallRun i w).out_frame
        = w.out_frame + if Int.tmod i smallRun.out_steps = 0 then 1 else 0) ∧
    ∃ w, simulationLoop env0 smallRun 5 (startWorld env0.sys0) = some w ∧
      (outputCalls w.log).map (fun c => (c.1, c.2.1))
        = (List.range ⌈(smallRun.num_steps : ℚ) / (smallRun.out_steps : ℚ)⌉.toNat).map
            (fun k : Nat => ((k : Int) * smallRun.out_steps, (k : Int))) ∧
      csvWrites w.log
        = (List.range ⌈(smallRun.num_steps : ℚ) / (smallRun.out_steps : ℚ)⌉.toNat).map
            (fun k : Nat => ((k : Int) * smallRun.out_steps,
              (if env0.num_ranks = 1 then "../reference" else "../granular"),
              "data" ++ Nat.repr k)) ∧
      w.out_frame = ⌈(smallRun.num_steps : ℚ) / (smallRun.out_steps : ℚ)⌉) :=
  ⟨⟨by decide, by decide, by decide⟩,
    C7_frame_indices env0 smallRun env0.sys0 5 (by decide) (by decide) (by decide)⟩

/-- Claim C8 (as stated) fails: evaluating the checkpoint statements a second time for tick 2000 of
the configured run issues `Set_G_acc((-5, 0, -10))` a second time. -/
theorem C8_counterexample :
    gravityCalls (applyCheckpoints configured 2000 (startWorld env0.sys0)).log
      = [(2000, ⟨-5, 0, -10⟩)] ∧
    gravityCalls (applyCheckpoints configured 2000
        (applyCheckpoints configured 2000 (startWorld env0.sys0))).log
      = [(2000, ⟨-5, 0, -10⟩), (2000, ⟨-5, 0, -10⟩)] := by
  simp only [applyCheckpoints_eq, configured_eq, checkpointEvents, startWorld]
  exact ⟨rfl, rfl⟩

/-- Claim C8 (amended): the checkpoint statements keep no record of what was applied.  Evaluating
them a second time for the same tick issues the same `Set_G_acc` calls again and leaves the
system as the first evaluation left it.  In a run of the stepping loop, which evaluates them
once per tick, each of the four mutations is applied at most once. -/
theorem C8_checkpoint_block_repeats (env : Env) (p : RunParams) (sys : ChSystemDistributed)
    (fuel : Nat) (t : Int) (w : World) (hs : p.out_steps ≠ 0)
    (hfuel : p.num_steps.toNat ≤ fuel) :
    (∃ calls : List (Int × ChVector),
      gravityCalls (applyCheckpoints p t w).log = gravityCalls w.log ++ calls ∧
      gravityCalls (applyCheckpoints p t (applyCheckpoints p t w)).log
        = gravityCalls (applyCheckpoints p t w).log ++ calls) ∧
    (applyCheckpoints p t (applyCheckpoints p t w)).sys = (applyCheckpoints p t w).sys ∧
    ∃ wf, simulationLoop env p fuel (startWorld sys) = some wf ∧
      timesApplied wf.log ⟨-5, 0, -10⟩ ≤ 1 ∧ timesApplied wf.log ⟨0, 5, -10⟩ ≤ 1 ∧
      timesApplied wf.log ⟨5, 0, -10⟩ ≤ 1 ∧ timesApplied wf.log ⟨0, -5, -10⟩ ≤ 1 := by
  refine ⟨⟨gravityCalls ((checkpointEvents p t).map (Prod.mk t)), ?_, ?_⟩, ?_, _,
    simulationLoop_eq env p fuel _ hs hfuel, ?_⟩
  · simp only [applyCheckpoints_eq, gravityCalls, List.filterMap_append]
  · simp only [applyCheckpoints_eq, gravityCalls, List.filterMap_append]
  · simp only [applyCheckpoints_eq, gravityAfter_idem]
  · obtain ⟨h0, h1, h2, h3⟩ :=
      timesApplied_le_one env p (startWorld sys) rfl p.num_steps.toNat
    rw [h0, h1, h2, h3]
    refine ⟨?_, ?_, ?_, ?_⟩ <;> split_ifs <;> decide

/-- Witness for claim C8 (amended): the small run with fuel 5, and a second evaluation at tick 2. -/
theorem C8_checkpoint_block_repeats_witness :
    (smallRun.out_steps ≠ 0 ∧ smallRun.num_steps.toNat ≤ 5) ∧
    ((∃ calls : List (Int × ChVector),
      gravityCalls (applyCheckpoints smallRun 2 (startWorld env0.sys0)).log
        = gravityCalls (startWorld env0.sys0).log ++ calls ∧
      gravityCalls (applyCheckpoints smallRun 2
          (applyCheckpoints smallRun 2 (startWorld env0.sys0))).log
        = gravityCalls (applyCheckpoints smallRun 2 (startWorld env0.sys0)).log ++ calls) ∧
    (applyCheckpoints smallRun 2 (applyCheckpoints smallRun 2 (startWorld env0.sys0))).sys
      = (applyCheckpoints smallRun 2 (startWorld env0.sys0)).sys ∧
    ∃ wf, simulationLoop env0 smallRun 5 (startWorld env0.sys0) = some wf ∧
      timesApplied wf.log ⟨-5, 0, -10⟩ ≤ 1 ∧ timesApplied wf.log ⟨0, 5, -10⟩ ≤ 1 ∧
      timesApplied wf.log ⟨5, 0, -10⟩ ≤ 1 ∧ timesApplied wf.log ⟨0, -5, -10⟩ ≤ 1) :=
  ⟨⟨by decide, by decide⟩,
    C8_checkpoint_block_repeats env0 smallRun env0.sys0 5 2 (startWorld env0.sys0) (by decide)
      (by decide)⟩

/-- Claim C9 (as stated) fails: for the sample readings the third field of the row is the step
timer `2`, not the tick duration, and the fields after it are not in the order in which
`Monitor` reads them. -/
theorem C9_counterexample :
    (Monitor 0 engine0).map RowField.value ≠ claimedRow 0 (1 / 1000) engine0 ∧
    ((Monitor 0 engine0).map RowField.value).drop 3 ≠ (claimedRow 0 (1 / 1000) engine0).drop 3 ∧
    ((Monitor 0 engine0).map RowField.value).get? 2 = some (Value.real 2) ∧
    ((Monitor 0 engine0).map RowField.value).get? 3 = some (Value.real 15) ∧
    (claimedRow 0 (1 / 1000) engine0).get? 3 = some (Value.real 3) := by
  simp [Monitor, claimedRow, engine0]

/-- Claim C9 (amended): the row of `Monitor` consists of, in this order, the rank, the engine time,
the step timer of the engine, and then the timers and counters in the order of the `printf`
argument list: exchange, send, receive, broad phase, `B1` to `B5`, `A`, narrow phase, solver,
update, body count, contact count, iteration count, residual.  It has 20 fields, and the
texts and conversions of the fields are the same for every rank and every engine state. -/
theorem C9_monitor_row (my_rank : Int) (system : EngineReadings) :
    (Monitor my_rank system).map RowField.value
      = [ Value.int my_rank, Value.real system.ChTime, Value.real system.TimerStep,
          Value.real (system.system_timer "Exchange"), Value.real (system.system_timer "Send"),
          Value.real (system.system_timer "Recv"), Value.real system.TimerCollisionBroad,
          Value.real (system.system_timer "B1"), Value.real (system.system_timer "B2"),
          Value.real (system.system_timer "B3"), Value.real (system.system_timer "B4"),
          Value.real (system.system_timer "B5"), Value.real (system.system_timer "A"),
          Value.real system.TimerCollisionNarrow, Value.real system.TimerSolver,
          Value.real system.TimerUpdate, Value.int system.Nbodies, Value.int system.Ncontacts,
          Value.int system.TotalIterations, Value.real system.Residual ] ∧
    (Monitor my_rank system).length = 20 ∧
    ∀ (rank' : Int) (system' : EngineReadings),
      (Monitor rank' system').map (fun f => (f.text, f.conv))
        = (Monitor my_rank system).map (fun f => (f.text, f.conv)) :=
  ⟨rfl, rfl, fun _ _ => rfl⟩

/-- Claim C10: with enough fuel `AddFallingBalls` returns, and for non-negative `count_X` and
`count_Y` it adds `15 * (2 * count_X + 1) * (2 * count_Y + 1)` bodies: the `z` loop runs for
the fifteen values `10, 10.35, ..., 14.9`, and each pass adds a layer of
`(2 * count_X + 1) * (2 * count_Y + 1)` balls. -/
theorem C10_falling_balls_count (cx cy : Int) (fuel : Nat) (sys : ChSystemDistributed)
    (hx : 0 ≤ cx) (hy : 0 ≤ cy) (hz : 15 ≤ fuel) (hfx : (2 * cx + 1).toNat ≤ fuel)
    (hfy : (2 * cy + 1).toNat ≤ fuel) :
    ∃ sys', AddFallingBalls cx cy fuel sys = some sys' ∧
      (sys'.bodies.length : Int)
        = sys.bodies.length + 15 * ((2 * cx + 1) * (2 * cy + 1)) := by
  obtain ⟨sys', h1, h2, -⟩ := AddFallingBalls_spec cx cy fuel sys hz hfx hfy
  refine ⟨sys', h1, ?_⟩
  rw [h2]
  push_cast
  rw [Int.toNat_of_nonneg (by omega), Int.toNat_of_nonneg (by omega)]

/-- Witness for claim C10: the configured `count_X = count_Y = 10` add `15 * 441 = 6615` bodies. -/
theorem C10_falling_balls_count_witness :
    ((0 : Int) ≤ 10 ∧ (0 : Int) ≤ 10 ∧ 15 ≤ 21 ∧ (2 * (10 : Int) + 1).toNat ≤ 21
      ∧ (2 * (10 : Int) + 1).toNat ≤ 21) ∧
    ∃ sys', AddFallingBalls 10 10 21 env0.sys0 = some sys' ∧
      (sys'.bodies.length : Int)
        = env0.sys0.bodies.length + 15 * ((2 * 10 + 1) * (2 * 10 + 1)) :=
  ⟨⟨by decide, by decide, by decide, by decide, by decide⟩,
    C10_falling_balls_count 10 10 21 env0.sys0 (by decide) (by decide) (by decide) (by decide)
      (by decide)⟩

end RotGrav
